import Mathlib

/-!
Verification of the avatar image-transform service (Go sources: `utils.go`,
`main.go`, `pfps.go`) against its natural-language specification.

The development shallowly embeds the pixel-level image pipeline:

* colors are quadruples of `Nat` channel values (8-bit in practice);
* a decoded raster image is a width, a height and a total pixel function
  (`Grid`); values outside the `width × height` rectangle are irrelevant
  and all stated properties quantify only over in-range coordinates where
  it matters;
* Go `image.RGBA` stores alpha-premultiplied bytes, so writing a decoded
  (non-premultiplied) color into the output canvas goes through the exact
  integer arithmetic of `color.NRGBA.RGBA()` followed by
  `color.RGBAModel` truncation (`rgbaStore` below), and re-encoding to
  PNG goes through `color.NRGBAModel` (`pngPixel` below).  A PNG byte
  stream losslessly and deterministically stores the 8-bit NRGBA grid, so
  byte-identical PNG output is modelled as pointwise-identical encoded
  grids;
* external libraries (the `colorquant` ditherer, the `image/draw`
  compositor) are not part of this repository; where an algorithm of the
  repository invokes them the model takes their result as an explicit
  function parameter and the theorems quantify over all possible results.

Machine integers: all Go `int` quantities that can be negative (the
requested corner radius) are `Int`; image dimensions, which Go's decoders
always produce non-negative, are `Nat`.  Go's truncating integer division
on the non-negative dimensions coincides with `Nat` division.
-/

namespace Avatars

/-- An 8-bit RGBA color value, one `Nat` per channel. -/
structure RGBA where
  r : Nat
  g : Nat
  b : Nat
  a : Nat
deriving DecidableEq, Repr

/-- A pixel grid: total function from coordinates to colors. -/
abbrev Grid := Nat → Nat → RGBA

/-- One channel of Go's `color.NRGBA.RGBA()` premultiplication followed by
`color.RGBAModel` truncation to a byte: `((n*0x101*A)/0xff) >> 8`.
This is what storing a decoded non-premultiplied color into an
`image.RGBA` canvas (`result.Set` in `roundCorners`) does per channel. -/
def premulChan (n A : Nat) : Nat := n * 257 * A / 255 / 256

/-- Storing a non-premultiplied color into an `image.RGBA` canvas:
premultiplies the color channels, keeps the alpha byte. -/
def rgbaStore (c : RGBA) : RGBA :=
  ⟨premulChan c.r c.a, premulChan c.g c.a, premulChan c.b c.a, c.a⟩

/-- One channel of Go's `color.NRGBAModel` conversion applied to a stored
`color.RGBA` value (the conversion the PNG encoder performs for an
`*image.RGBA` source): `((p*0x101)*0xffff/(A*0x101)) >> 8`. -/
def unpremulChan (p A : Nat) : Nat := p * 257 * 65535 / (A * 257) / 256

/-- Go's `color.NRGBAModel` conversion of a stored premultiplied color,
i.e. the per-pixel effect of PNG-encoding an `*image.RGBA`:
alpha `0xff` is passed through, alpha `0` becomes the zero color, and
otherwise each color channel is un-premultiplied. -/
def pngPixel (c : RGBA) : RGBA :=
  if c.a = 255 then c
  else if c.a = 0 then ⟨0, 0, 0, 0⟩
  else ⟨unpremulChan c.r c.a, unpremulChan c.g c.a, unpremulChan c.b c.a, c.a⟩

/-- `isPixelInRoundedRect` from `utils.go`: a pixel is outside the rounded
rectangle only inside one of the four corner guard regions, where an
integer squared-distance test against that corner's circle center
decides membership.  Direct translation of the Go `switch`. -/
def isPixelInRoundedRect (x y width height radius : Int) : Bool :=
  if x < radius ∧ y < radius then
    decide ((x - radius) * (x - radius) + (y - radius) * (y - radius) ≤ radius * radius)
  else if width - radius ≤ x ∧ y < radius then
    decide ((x - (width - radius - 1)) * (x - (width - radius - 1))
      + (y - radius) * (y - radius) ≤ radius * radius)
  else if x < radius ∧ height - radius ≤ y then
    decide ((x - radius) * (x - radius)
      + (y - (height - radius - 1)) * (y - (height - radius - 1)) ≤ radius * radius)
  else if width - radius ≤ x ∧ height - radius ≤ y then
    decide ((x - (width - radius - 1)) * (x - (width - radius - 1))
      + (y - (height - radius - 1)) * (y - (height - radius - 1)) ≤ radius * radius)
  else
    true

/-- The radius clamp performed by `roundCorners` (`utils.go`): the radius is
reduced to `height/2` when it exceeds it.  Note the width plays no role. -/
def roundCornersRadius (height : Nat) (radius : Int) : Int :=
  if ((height / 2 : Nat) : Int) < radius then ((height / 2 : Nat) : Int) else radius

/-- The masking loop of `roundCorners`: each pixel of the output canvas is
the stored source color when the (clamped-radius) mask admits it and the
fully transparent color otherwise. -/
def roundCornersGrid (w h : Nat) (src : Grid) (radius : Int) : Grid := fun x y =>
  if isPixelInRoundedRect (x : Int) (y : Int) (w : Int) (h : Int)
      (roundCornersRadius h radius) then
    rgbaStore (src x y)
  else
    ⟨0, 0, 0, 0⟩

/-- The full static `roundCorners` pixel pipeline: decode (the input grid is
the decoded non-premultiplied image), mask into an `image.RGBA` canvas,
PNG-encode.  The value at `(x, y)` is the NRGBA value the emitted PNG
stores for that pixel. -/
def roundCornersPNG (w h : Nat) (src : Grid) (radius : Int) : Grid := fun x y =>
  pngPixel (roundCornersGrid w h src radius x y)

/-! ### The animated (GIF) transform, `roundGIF` -/

/-- A paletted GIF frame: a palette (list of colors) and, per pixel, the
palette index stored for it (Go `image.Paletted`). -/
structure Frame where
  palette : List RGBA
  pixIdx : Nat → Nat → Nat

/-- The parts of Go's `gif.GIF` that `roundGIF` reads or writes. -/
structure Gif where
  width : Nat
  height : Nat
  loopCount : Int
  delay : List Int
  disposal : List Nat
  backgroundIndex : Nat
  image : List Frame

/-- The two error cases `roundGIF` can produce: `no frames in GIF` and
`no room for transparent color after quantization`. -/
inductive GifError where
  | noFrames
  | paletteOverflow
deriving DecidableEq, Repr

/-- The `colorquant` ditherer (`ditherer.Quantize`) is an external library;
the model takes its per-frame result (a palette plus indexed pixels) as an
arbitrary function of the composited snapshot. -/
abbrev Quantizer := Grid → Frame

/-- The radius clamp performed by `roundGIF`: first against `width/2`, then
against `height/2` (both, unlike the static `roundCorners`). -/
def effectiveGIFRadius (w h : Nat) (radius : Int) : Int :=
  let r1 : Int := if ((w / 2 : Nat) : Int) < radius then ((w / 2 : Nat) : Int) else radius
  if ((h / 2 : Nat) : Int) < r1 then ((h / 2 : Nat) : Int) else r1

/-- The colors of a full-canvas snapshot enumerated in the scan order of the
Go loops (`y` outer, `x` inner). -/
def snapshotColors (w h : Nat) (snap : Grid) : List RGBA :=
  (List.range h).flatMap fun y => (List.range w).map fun x => snap x y

/-- The early-exit accumulation loop of `uniqueColors` (`utils.go`): walk the
pixels keeping the set of colors seen so far; as soon as the count would
exceed `limit` return `(count, false)`, otherwise finish with
`(count, true)`. -/
def uniqueLoop (limit : Nat) : List RGBA → List RGBA → Nat × Bool
  | seen, [] => (seen.length, true)
  | seen, c :: rest =>
    if c ∈ seen then uniqueLoop limit seen rest
    else if limit < seen.length + 1 then (seen.length + 1, false)
    else uniqueLoop limit (c :: seen) rest

/-- `uniqueColors` from `utils.go`: counts distinct colors of the image with
an early exit once the count exceeds `limit`; the boolean means "safe to
skip quantization".  It is applied to the composited snapshot BEFORE the
corner mask is applied. -/
def uniqueColors (w h : Nat) (snap : Grid) (limit : Nat) : Nat × Bool :=
  uniqueLoop limit [] (snapshotColors w h snap)

/-- The branch condition of `roundGIF`'s per-frame palette construction: the
exact-palette path is taken precisely when `uniqueColors(inputRGBA, 255)`
reports `true`. -/
def takesExactPath (w h : Nat) (snap : Grid) : Bool :=
  (uniqueColors w h snap 255).2

/-- The exact-palette path of `roundGIF`: enumerate the distinct snapshot
colors as the palette and index every pixel by its color's position.
(Go iterates a hash map here, so the palette order is unspecified; the
model fixes one enumeration order, which no stated property depends
on.) -/
def exactFrame (w h : Nat) (snap : Grid) : Frame :=
  let pal := (snapshotColors w h snap).dedup
  ⟨pal, fun x y => List.indexOf (snap x y) pal⟩

/-- The frame produced by the quantization step of `roundGIF` before
transparency handling: the exact palette when `uniqueColors` allows it,
the external ditherer's result otherwise. -/
def candidateFrame (w h : Nat) (quant : Quantizer) (snap : Grid) : Frame :=
  if takesExactPath w h snap then exactFrame w h snap else quant snap

/-- The color a paletted frame shows at a pixel (Go `Paletted.At`): the
palette entry selected by the stored index.  Out-of-range indices (which
would panic in Go) default to the zero color. -/
def frameColor (f : Frame) (x y : Nat) : RGBA :=
  f.palette.getD (f.pixIdx x y) ⟨0, 0, 0, 0⟩

/-- The corner mask as applied to a pixel buffer inside `roundGIF`: pixels
outside the rounded region get their alpha byte forced to `0`, all other
bytes are untouched. -/
def maskGrid (w h : Nat) (rc : Int) (g : Grid) : Grid := fun x y =>
  if isPixelInRoundedRect (x : Int) (y : Int) (w : Int) (h : Int) rc then g x y
  else { g x y with a := 0 }

/-- The per-frame body of `roundGIF`'s main loop after compositing: quantize
(or enumerate) the snapshot, apply the corner mask to the output buffer,
ensure a transparent palette entry exists (erroring when the palette is
already full), and force every zero-alpha pixel to the transparent
index. -/
def processFrame (w h : Nat) (rc : Int) (quant : Quantizer) (snap : Grid) :
    Except GifError Frame :=
  let p0 := candidateFrame w h quant snap
  let hasTrans := p0.palette.any fun c => c.a == 0
  if hasTrans = false ∧ 256 ≤ p0.palette.length then
    .error .paletteOverflow
  else
    let pal1 := if hasTrans then p0.palette else p0.palette ++ [⟨0, 0, 0, 0⟩]
    let transIndex := pal1.findIdx fun c => c.a == 0
    .ok ⟨pal1, fun x y =>
      if (if isPixelInRoundedRect (x : Int) (y : Int) (w : Int) (h : Int) rc then
            (frameColor p0 x y).a
          else 0) = 0 then
        transIndex
      else p0.pixIdx x y⟩

/-- The frame loop of `roundGIF`, processing frames `i, i+1, ...` (`n` of
them) in order and aborting on the first error, as the Go `for` loop
does. -/
def processFrames (w h : Nat) (rc : Int) (quant : Quantizer) (snaps : Nat → Grid) :
    Nat → Nat → Except GifError (List Frame)
  | _, 0 => .ok []
  | i, n + 1 =>
    match processFrame w h rc quant (snaps i) with
    | .error e => .error e
    | .ok f =>
      match processFrames w h rc quant snaps (i + 1) n with
      | .error e => .error e
      | .ok fs => .ok (f :: fs)

/-- `roundGIF` from `utils.go`.  The compositing of raw frame deltas into
full-canvas snapshots (`image/draw` with GIF disposal handling) uses the
external `image/draw` library; the model takes the composited snapshot of
each frame index as a parameter (`snaps`) and quantifies over it.
Structure follows the source: error on zero frames, clamp the radius
against half width and half height, return the input unchanged when the
clamped radius is non-positive, otherwise process every frame (disposal
of output frames is forced to `DisposalNone = 1`) preserving loop count,
delays and config. -/
def roundGIF (quant : Quantizer) (snaps : Nat → Grid) (src : Gif) (radius : Int) :
    Except GifError Gif :=
  if src.image.length = 0 then .error .noFrames
  else
    let rc := effectiveGIFRadius src.width src.height radius
    if rc ≤ 0 then .ok src
    else
      match processFrames src.width src.height rc quant snaps 0 src.image.length with
      | .error e => .error e
      | .ok frames =>
        .ok { src with image := frames, disposal := List.replicate src.image.length 1 }

/-! ### The transform caches -/

/-- Encoded image bytes. -/
abbrev Bytes := List Nat

/-- A cache entry (`CachedImage` in `main.go`): payload bytes, content type
and creation timestamp (seconds; entries created without a timestamp get
`0`, the zero time). -/
structure CachedImage where
  data : Bytes
  contentType : String
  timestamp : Nat
deriving DecidableEq, Repr

/-- `cacheTimeout` from `main.go`: one hour, fixed at process start. -/
def cacheTimeout : Nat := 3600

/-- A transform-cache key.  Go keys `roundedCache`/`resizedCache` by
`md5(data)-parameter`; the model keys by the pair (content hashing is
modelled as injective). -/
abbrev TransformKey := Bytes × Int

/-- A transform cache: newest-first association list standing for the Go
map (`find?` returns the most recent binding of a key). -/
abbrev Cache := List (TransformKey × CachedImage)

/-- Plain map lookup, no freshness check. -/
def cacheFind (st : Cache) (k : TransformKey) : Option CachedImage :=
  (st.find? fun e => e.1 == k).map fun e => e.2

/-- The guarded lookup `roundCorners` and `resizeImage` perform: a stored
entry is served only when `time.Since(Timestamp) < cacheTimeout` seconds;
an older entry falls through to recomputation. -/
def lookupFresh (st : Cache) (k : TransformKey) (now : Nat) : Option CachedImage :=
  (cacheFind st k).bind fun e =>
    if now - e.timestamp < cacheTimeout then some e else none

/-- Map insert (last writer wins under newest-first lookup). -/
def cachePut (st : Cache) (k : TransformKey) (e : CachedImage) : Cache :=
  (k, e) :: st

/-- A decoded raster image. -/
structure Raster where
  width : Nat
  height : Nat
  pix : Grid

/-- Decode and encode failures of the static transforms. -/
inductive TransformError where
  | decodeError
  | encodeError
deriving DecidableEq, Repr

/-- The compute-and-store path of `roundCorners` (`utils.go`): decode
(abstracted: `image.Decode` is external), mask, PNG-encode (abstracted),
and only after a fully successful transform store the result in the
rounded cache.  Failures return the error with the untouched input bytes
and a `image/jpeg` content type, exactly as the source does, and leave
the cache as it was. -/
def roundCornersCompute (decode : Bytes → Option Raster)
    (encodePNG : Nat → Nat → Grid → Option Bytes) (now : Nat) (st : Cache)
    (data : Bytes) (radius : Int) : (Bytes × String × Option TransformError) × Cache :=
  match decode data with
  | none => ((data, "image/jpeg", some .decodeError), st)
  | some img =>
    match encodePNG img.width img.height
        (roundCornersGrid img.width img.height img.pix radius) with
    | none => ((data, "image/jpeg", some .encodeError), st)
    | some out =>
      ((out, "image/png", none), cachePut st (data, radius) ⟨out, "image/png", now⟩)

/-- `roundCorners` from `utils.go` with its cache interaction: serve a fresh
cached entry, otherwise compute and store. -/
def roundCorners (decode : Bytes → Option Raster)
    (encodePNG : Nat → Nat → Grid → Option Bytes) (now : Nat) (st : Cache)
    (data : Bytes) (radius : Int) : (Bytes × String × Option TransformError) × Cache :=
  match lookupFresh st (data, radius) now with
  | some e => ((e.data, e.contentType, none), st)
  | none => roundCornersCompute decode encodePNG now st data radius

/-- The compute-and-store path of `resizeImage` (`utils.go`): decode, resize
and JPEG-encode (both abstracted, combined in `resizeJPEG`; `resize.Resize`
itself cannot fail, so a `none` is an encode failure), store only on
success. -/
def resizeImageCompute (decode : Bytes → Option Raster)
    (resizeJPEG : Raster → Int → Option Bytes) (now : Nat) (st : Cache)
    (data : Bytes) (size : Int) : (Bytes × Option TransformError) × Cache :=
  match decode data with
  | none => ((data, some .decodeError), st)
  | some img =>
    match resizeJPEG img size with
    | none => ((data, some .encodeError), st)
    | some out => ((out, none), cachePut st (data, size) ⟨out, "image/jpeg", now⟩)

/-- `resizeImage` from `utils.go` with its cache interaction. -/
def resizeImage (decode : Bytes → Option Raster)
    (resizeJPEG : Raster → Int → Option Bytes) (now : Nat) (st : Cache)
    (data : Bytes) (size : Int) : (Bytes × Option TransformError) × Cache :=
  match lookupFresh st (data, size) now with
  | some e => ((e.data, none), st)
  | none => resizeImageCompute decode resizeJPEG now st data size

/-- The `transformCache` lookup performed by `avatarHandler` in `pfps.go`:
a plain map lookup keyed by the etag-with-modifiers string.  Unlike
`roundCorners`/`resizeImage` it consults no timestamp at all (entries are
in fact stored there with the zero `Timestamp`). -/
def avatarTransformCacheLookup (st : List (String × CachedImage)) (key : String) :
    Option CachedImage :=
  (st.find? fun e => e.1 == key).map fun e => e.2

/-! ### ETag derivation in `avatarHandler` (`main.go`) -/

/-- Decimal digit value of a character. -/
def digitVal (c : Char) : Option Nat :=
  if 48 ≤ c.toNat ∧ c.toNat ≤ 57 then some (c.toNat - 48) else none

/-- Accumulate decimal digits; any non-digit poisons the parse. -/
def parseDigitsAux : Option Nat → List Char → Option Nat
  | acc, [] => acc
  | acc, c :: cs =>
    match acc, digitVal c with
    | some n, some d => parseDigitsAux (some (n * 10 + d)) cs
    | _, _ => none

/-- Model of `strconv.Atoi` restricted to unsigned decimal numerals — the
only successfully parsed inputs whose value the handlers go on to use
(a parsed negative number fails the `> 0` guards just as a parse error
does, with the same observable outcome). -/
def goAtoi (s : String) : Option Int :=
  match s.data with
  | [] => none
  | cs => (parseDigitsAux (some 0) cs).map fun n => (n : Int)

/-- `strings.TrimSuffix(radius, "px")`. -/
def trimSuffixPx (s : String) : String :=
  if s.data.reverse.take 2 = ['x', 'p'] then String.mk (s.data.reverse.drop 2).reverse
  else s

/-- The size branch of `avatarHandler` (`main.go`): when `s` parses to a
size in `(0, 256)` (the handler excludes `256` itself) and the resize
succeeds, the body is replaced and `-size-<n>` (decimal rendering of the
parsed value) is appended to the validator. -/
def sizeStep (resizeEnc : Bytes → Int → Option Bytes) (data : Bytes) (etag : String)
    (sizeStr : String) : Bytes × String :=
  match goAtoi sizeStr with
  | some size =>
    if 0 < size ∧ size ≤ 256 ∧ size ≠ 256 then
      match resizeEnc data size with
      | some resized => (resized, etag ++ "-size-" ++ toString size)
      | none => (data, etag)
    else (data, etag)
  | none => (data, etag)

/-- The radius branch of `avatarHandler` (`main.go`): when the radius string
(after trimming a `px` suffix) parses positive and `roundCorners`
succeeds, the body and content type are replaced and `-rounded-<raw>` is
appended to the validator — note the RAW query string, suffix included,
is appended, not the parsed value. -/
def radiusStep (roundEnc : Bytes → Int → Option (Bytes × String)) (data : Bytes)
    (etag : String) (contentType : String) (radiusStr : String) :
    Bytes × String × String :=
  match goAtoi (trimSuffixPx radiusStr) with
  | some radiusInt =>
    if 0 < radiusInt then
      match roundEnc data radiusInt with
      | some p => (p.1, p.2, etag ++ "-rounded-" ++ radiusStr)
      | none => (data, contentType, etag)
    else (data, contentType, etag)
  | none => (data, contentType, etag)

/-- The response body, content type and validator (ETag) `avatarHandler`
(`main.go`) derives for a request, given the source bytes and base
identity token: size modifier first, then radius modifier.  The resize
and round transforms are abstracted as function parameters. -/
def avatarStatic (resizeEnc : Bytes → Int → Option Bytes)
    (roundEnc : Bytes → Int → Option (Bytes × String)) (data : Bytes) (etag : String)
    (sizeStr radiusStr : String) : Bytes × String × String :=
  let s := sizeStep resizeEnc data etag sizeStr
  radiusStep roundEnc s.1 s.2 "image/jpeg" radiusStr

/-! ### Hypothesis predicates and concrete evaluation inputs -/

/-- All color channels are 8-bit values. -/
def chanBounded (g : Grid) : Prop :=
  ∀ x y, (g x y).r ≤ 255 ∧ (g x y).g ≤ 255 ∧ (g x y).b ≤ 255

/-- Every pixel is fully opaque or fully transparent (e.g. any image decoded
from a JPEG, or a mask output on such an image). -/
def opaqueOrClear (g : Grid) : Prop :=
  ∀ x y, (g x y).a = 255 ∨ (g x y).a = 0

/-- A constant fully-opaque test image. -/
def c1src : Grid := fun _ _ => ⟨10, 20, 30, 255⟩

/-- A constant semi-transparent test image (alpha 2). -/
def c9src : Grid := fun _ _ => ⟨128, 128, 128, 2⟩

/-- A constant opaque test image for the idempotence witness. -/
def c9wit : Grid := fun _ _ => ⟨5, 6, 7, 255⟩

/-- A 16×16 snapshot with 256 distinct colors of which the twelve corner
pixels masked away by radius 2 share RGB `(999, 0, 0)` and differ only in
alpha, so that masking collapses them to a single color. -/
def c3snap : Grid := fun x y =>
  if isPixelInRoundedRect (x : Int) (y : Int) 16 16 2 then ⟨16 * x + y, 0, 0, 255⟩
  else ⟨999, 0, 0, 16 * x + y⟩

/-- A constant opaque color used by the GIF test inputs. -/
def witColor : RGBA := ⟨9, 9, 9, 255⟩

/-- Constant composited snapshots for every frame index. -/
def witSnaps : Nat → Grid := fun _ => fun _ _ => witColor

/-- A concrete quantizer instance. -/
def witQuant : Quantizer := fun _ => ⟨[⟨1, 1, 1, 255⟩], fun _ _ => 0⟩

/-- A one-entry paletted frame. -/
def witFrame : Frame := ⟨[witColor], fun _ _ => 0⟩

/-- A concrete one-frame 2×2 GIF. -/
def witGif : Gif := ⟨2, 2, 0, [10], [1], 0, [witFrame]⟩

/-- A GIF whose decoded frame list is empty. -/
def emptyGif : Gif := ⟨2, 2, 0, [], [], 0, []⟩

/-- The output of `roundGIF` on the concrete one-frame GIF at radius 1. -/
def c2dst : Gif := ((roundGIF witQuant witSnaps witGif 1).toOption).getD witGif

/-- A decoder that always fails. -/
def decodeNone : Bytes → Option Raster := fun _ => none

/-- A PNG encoder that always fails. -/
def encodeNone : Nat → Nat → Grid → Option Bytes := fun _ _ _ => none

/-- A resize-and-encode step that always fails. -/
def resizeNone : Raster → Int → Option Bytes := fun _ _ => none

/-- A cache entry created at time 9000 (fresh at time 9999). -/
def c7freshEntry : CachedImage := ⟨[1], "image/png", 9000⟩

/-- A cache entry created at time 100 (stale at time 9999). -/
def c7staleEntry : CachedImage := ⟨[2], "image/png", 100⟩

/-- A cache holding only the fresh entry. -/
def c7freshSt : Cache := [(([7], 2), c7freshEntry)]

/-- A cache holding only the stale entry. -/
def c7staleSt : Cache := [(([8], 2), c7staleEntry)]

/-- A concrete always-successful corner-rounding transform: appends the
radius to the bytes (any injective-in-the-radius choice works). -/
def rcConst : Bytes → Int → Option (Bytes × String) :=
  fun d r => some (d ++ [r.toNat], "image/png")

/-- A concrete always-successful resize transform. -/
def rsConst : Bytes → Int → Option Bytes := fun d _ => some d

/-! ### Helper lemmas -/

/-- The early-exit color counting loop reports `true` exactly when the number
of distinct colors among the accumulator and the remaining pixels stays
within the limit. -/
lemma uniqueLoop_true_iff (limit : Nat) :
    ∀ (cs seen : List RGBA), seen.Nodup → seen.length ≤ limit →
      ((uniqueLoop limit seen cs).2 = true ↔ (cs.toFinset ∪ seen.toFinset).card ≤ limit)
  | [], seen, hnd, hlen => by
    simp [uniqueLoop, List.toFinset_card_of_nodup hnd, hlen]
  | c :: rest, seen, hnd, hlen => by
    by_cases hc : c ∈ seen
    · rw [uniqueLoop, if_pos hc]
      rw [uniqueLoop_true_iff limit rest seen hnd hlen]
      have hset : (c :: rest).toFinset ∪ seen.toFinset = rest.toFinset ∪ seen.toFinset := by
        simp only [List.toFinset_cons]
        rw [Finset.insert_union, Finset.insert_eq_self.mpr]
        exact Finset.mem_union_right _ (List.mem_toFinset.mpr hc)
      rw [hset]
    · by_cases hover : limit < seen.length + 1
      · rw [uniqueLoop, if_neg hc, if_pos hover]
        refine iff_of_false (by simp) fun hcard => ?_
        have hsub : insert c seen.toFinset ⊆ (c :: rest).toFinset ∪ seen.toFinset := by
          intro z hz
          rcases Finset.mem_insert.mp hz with hz | hz
          · subst hz
            exact Finset.mem_union_left _ (by simp)
          · exact Finset.mem_union_right _ hz
        have h1 : (insert c seen.toFinset).card = seen.length + 1 := by
          rw [Finset.card_insert_of_not_mem (fun hm => hc (List.mem_toFinset.mp hm)),
            List.toFinset_card_of_nodup hnd]
        have h2 := Finset.card_le_card hsub
        omega
      · rw [uniqueLoop, if_neg hc, if_neg hover]
        have hnd2 : (c :: seen).Nodup := List.nodup_cons.mpr ⟨hc, hnd⟩
        rw [uniqueLoop_true_iff limit rest (c :: seen) hnd2 (by simpa using Nat.not_lt.mp hover)]
        have hset : rest.toFinset ∪ (c :: seen).toFinset = (c :: rest).toFinset ∪ seen.toFinset := by
          simp only [List.toFinset_cons]
          rw [Finset.union_insert, Finset.insert_union]
        rw [hset]

/-- The exact-palette branch condition of `roundGIF` holds exactly when the
(pre-mask) composited snapshot has at most 255 distinct colors. -/
lemma takesExactPath_iff_card (w h : Nat) (snap : Grid) :
    takesExactPath w h snap = true ↔ (snapshotColors w h snap).toFinset.card ≤ 255 := by
  have h0 := uniqueLoop_true_iff 255 (snapshotColors w h snap) [] List.nodup_nil (by simp)
  simpa [takesExactPath, uniqueColors] using h0

/-- `processFrame` either succeeds or fails with the palette-overflow
error — no other outcome exists. -/
lemma processFrame_ok_or_overflow (w h : Nat) (rc : Int) (quant : Quantizer) (snap : Grid) :
    (∃ f, processFrame w h rc quant snap = .ok f) ∨
      processFrame w h rc quant snap = .error .paletteOverflow := by
  unfold processFrame
  dsimp only
  split
  · exact Or.inr rfl
  · exact Or.inl ⟨_, rfl⟩

/-- A frame produced by `processFrame` carries a transparent palette entry,
and every pixel rejected by the mask predicate is indexed to a transparent
palette entry. -/
lemma processFrame_ok_props (w h : Nat) (rc : Int) (quant : Quantizer) (snap : Grid)
    (f : Frame) (hok : processFrame w h rc quant snap = .ok f) :
    (∃ c ∈ f.palette, c.a = 0) ∧
    ∀ x y : Nat,
      isPixelInRoundedRect (x : Int) (y : Int) (w : Int) (h : Int) rc = false →
      f.pixIdx x y < f.palette.length ∧
      (f.palette.getD (f.pixIdx x y) ⟨0, 0, 0, 0⟩).a = 0 := by
  unfold processFrame at hok
  dsimp only at hok
  split at hok
  · exact absurd hok (by simp)
  · rw [Except.ok.injEq] at hok
    subst hok
    set p0 := candidateFrame w h quant snap with hp0
    by_cases htr : (p0.palette.any fun c => c.a == 0) = true
    · have hex : ∃ c ∈ p0.palette, c.a = 0 := by
        rcases List.any_eq_true.mp htr with ⟨c, hcmem, hca⟩
        exact ⟨c, hcmem, by simpa using hca⟩
      have hpal : (if p0.palette.any fun c => c.a == 0 then p0.palette
          else p0.palette ++ [(⟨0, 0, 0, 0⟩ : RGBA)]) = p0.palette := if_pos htr
      refine ⟨?_, ?_⟩
      · rw [hpal]
        exact hex
      · intro x y hmask
        have hexb : ∃ c ∈ p0.palette, (fun c : RGBA => c.a == 0) c = true := by
          rcases hex with ⟨c, hm, hc0⟩
          exact ⟨c, hm, by simp [hc0]⟩
        have hlt := @List.findIdx_lt_length_of_exists RGBA (fun c => c.a == 0) p0.palette hexb
        have hget := @List.findIdx_getElem RGBA (fun c => c.a == 0) p0.palette hlt
        simp only [hpal, hmask]
        constructor
        · simpa using hlt
        · rw [List.getD_eq_getElem _ _ (by simpa using hlt)]
          simpa using hget
    · have htr2 : (p0.palette.any fun c => c.a == 0) = false := by
        simpa using htr
      have hpal : (if p0.palette.any fun c => c.a == 0 then p0.palette
          else p0.palette ++ [(⟨0, 0, 0, 0⟩ : RGBA)]) = p0.palette ++ [⟨0, 0, 0, 0⟩] := by
        rw [if_neg]
        simp [htr2]
      have hex : ∃ c ∈ p0.palette ++ [(⟨0, 0, 0, 0⟩ : RGBA)], c.a = 0 :=
        ⟨⟨0, 0, 0, 0⟩, by simp, rfl⟩
      refine ⟨by rw [hpal]; exact hex, ?_⟩
      intro x y hmask
      have hexb : ∃ c ∈ p0.palette ++ [(⟨0, 0, 0, 0⟩ : RGBA)],
          (fun c : RGBA => c.a == 0) c = true := by
        rcases hex with ⟨c, hm, hc0⟩
        exact ⟨c, hm, by simp [hc0]⟩
      have hlt := @List.findIdx_lt_length_of_exists RGBA (fun c => c.a == 0)
        (p0.palette ++ [(⟨0, 0, 0, 0⟩ : RGBA)]) hexb
      have hget := @List.findIdx_getElem RGBA (fun c => c.a == 0)
        (p0.palette ++ [(⟨0, 0, 0, 0⟩ : RGBA)]) hlt
      simp only [hpal, hmask]
      constructor
      · simpa using hlt
      · rw [List.getD_eq_getElem _ _ (by simpa using hlt)]
        simpa using hget

/-- Every frame in a successful `processFrames` run is a `processFrame`
output for some index. -/
lemma processFrames_mem (w h : Nat) (rc : Int) (quant : Quantizer) (snaps : Nat → Grid) :
    ∀ (n i : Nat) (fs : List Frame), processFrames w h rc quant snaps i n = .ok fs →
      ∀ f ∈ fs, ∃ j, processFrame w h rc quant (snaps j) = .ok f
  | 0, i, fs, hok => by
    unfold processFrames at hok
    rw [Except.ok.injEq] at hok
    subst hok
    intro f hf
    exact absurd hf (List.not_mem_nil f)
  | n + 1, i, fs, hok => by
    unfold processFrames at hok
    cases hp : processFrame w h rc quant (snaps i) with
    | error e => rw [hp] at hok; exact absurd hok (by simp)
    | ok f0 =>
      rw [hp] at hok
      cases hrec : processFrames w h rc quant snaps (i + 1) n with
      | error e => rw [hrec] at hok; exact absurd hok (by simp)
      | ok fs0 =>
        rw [hrec, Except.ok.injEq] at hok
        subst hok
        intro f hf
        rcases List.mem_cons.mp hf with hf | hf
        · exact ⟨i, by rw [hp, hf]⟩
        · exact processFrames_mem w h rc quant snaps n (i + 1) fs0 hrec f hf

/-- If some in-range frame overflows its palette, the whole frame loop fails
with the palette-overflow error. -/
lemma processFrames_error (w h : Nat) (rc : Int) (quant : Quantizer) (snaps : Nat → Grid) :
    ∀ (n i j : Nat), i ≤ j → j < i + n →
      processFrame w h rc quant (snaps j) = .error .paletteOverflow →
      processFrames w h rc quant snaps i n = .error .paletteOverflow
  | 0, i, j, hij, hlt, _ => absurd hlt (by omega)
  | n + 1, i, j, hij, hlt, herr => by
    unfold processFrames
    rcases Nat.eq_or_lt_of_le hij with heq | hlt2
    · subst heq
      rw [herr]
    · cases hp : processFrame w h rc quant (snaps i) with
      | error e =>
        rcases processFrame_ok_or_overflow w h rc quant (snaps i) with ⟨f, hf⟩ | hover
        · rw [hp] at hf
          exact absurd hf (by simp)
        · rw [hp] at hover
          rw [Except.error.injEq] at hover
          rw [hover]
      | ok f0 =>
        rw [processFrames_error w h rc quant snaps n (i + 1) j hlt2 (by omega) herr]

/-- When `roundGIF` succeeds with a positive clamped radius, its output
frames are exactly the frame-loop outputs. -/
lemma roundGIF_ok_image (quant : Quantizer) (snaps : Nat → Grid) (src : Gif) (radius : Int)
    (dst : Gif) (hpos : 0 < effectiveGIFRadius src.width src.height radius)
    (hok : roundGIF quant snaps src radius = .ok dst) :
    processFrames src.width src.height (effectiveGIFRadius src.width src.height radius)
      quant snaps 0 src.image.length = .ok dst.image := by
  unfold roundGIF at hok
  dsimp only at hok
  rw [if_neg (by omega : ¬ effectiveGIFRadius src.width src.height radius ≤ 0)] at hok
  split at hok
  · exact absurd hok (by simp)
  · cases hpf : processFrames src.width src.height
        (effectiveGIFRadius src.width src.height radius) quant snaps 0 src.image.length with
    | error e => rw [hpf] at hok; exact absurd hok (by simp)
    | ok frames =>
      rw [hpf, Except.ok.injEq] at hok
      subst hok
      rfl

/-- A requested radius ≤ 0, or a canvas side ≤ 1, leaves the clamped radius
non-positive. -/
lemma effectiveGIFRadius_nonpos (w h : Nat) (radius : Int)
    (hc : radius ≤ 0 ∨ w ≤ 1 ∨ h ≤ 1) : effectiveGIFRadius w h radius ≤ 0 := by
  unfold effectiveGIFRadius
  dsimp only
  split_ifs <;> omega

/-- `roundGIF`'s clamp sends every radius above `min(width, height)/2` to
exactly `min(width, height)/2`. -/
lemma effectiveGIFRadius_clamp (w h : Nat) (radius : Int)
    (hgt : ((min w h / 2 : Nat) : Int) < radius) :
    effectiveGIFRadius w h radius = ((min w h / 2 : Nat) : Int) := by
  unfold effectiveGIFRadius
  dsimp only
  split_ifs <;> omega

/-- `min(width, height)/2` is a fixed point of `roundGIF`'s clamp. -/
lemma effectiveGIFRadius_self (w h : Nat) :
    effectiveGIFRadius w h ((min w h / 2 : Nat) : Int) = ((min w h / 2 : Nat) : Int) := by
  unfold effectiveGIFRadius
  dsimp only
  split_ifs <;> omega

/-- Premultiplication by a full alpha is the identity on bytes. -/
lemma premulChan_alpha255 (n : Nat) (hn : n ≤ 255) : premulChan n 255 = n := by
  unfold premulChan
  omega

/-- Premultiplication by a zero alpha clears the channel. -/
lemma premulChan_clear (n : Nat) : premulChan n 0 = 0 := by
  unfold premulChan
  simp

/-- On colors that are fully opaque or fully transparent the
store-then-encode conversion pair is idempotent. -/
lemma pngStore_idem (c : RGBA) (hb : c.r ≤ 255 ∧ c.g ≤ 255 ∧ c.b ≤ 255)
    (ha : c.a = 255 ∨ c.a = 0) :
    pngPixel (rgbaStore (pngPixel (rgbaStore c))) = pngPixel (rgbaStore c) := by
  obtain ⟨r, g, b, a⟩ := c
  rcases ha with ha | ha <;> subst ha
  · have hs : rgbaStore ⟨r, g, b, 255⟩ = ⟨r, g, b, 255⟩ := by
      unfold rgbaStore
      simp [premulChan_alpha255 r hb.1, premulChan_alpha255 g hb.2.1, premulChan_alpha255 b hb.2.2]
    have hp : pngPixel (⟨r, g, b, 255⟩ : RGBA) = ⟨r, g, b, 255⟩ := by
      unfold pngPixel
      simp
    rw [hs, hp, hs, hp]
  · have hs : rgbaStore ⟨r, g, b, 0⟩ = ⟨0, 0, 0, 0⟩ := by
      unfold rgbaStore
      simp [premulChan_clear]
    have hs0 : rgbaStore ⟨0, 0, 0, 0⟩ = ⟨0, 0, 0, 0⟩ := by
      unfold rgbaStore
      simp [premulChan_clear]
    have hp : pngPixel (⟨0, 0, 0, 0⟩ : RGBA) = ⟨0, 0, 0, 0⟩ := by
      unfold pngPixel
      simp
    rw [hs, hp, hs0]
    exact hp

/-! ### Claim theorems -/

/-- C1 (amended): `roundGIF` clamps the requested radius to
`min(width, height)/2`, so any radius above that bound produces the same
output as requesting exactly `min(width, height)/2`; `roundCorners`,
however, clamps only against `height/2`, so the same property holds for it
only when `height ≤ width` (where `height/2` is `min(width, height)/2`). -/
theorem radius_clamp_amended :
    (∀ (quant : Quantizer) (snaps : Nat → Grid) (src : Gif) (radius : Int),
      ((min src.width src.height / 2 : Nat) : Int) < radius →
      roundGIF quant snaps src radius
        = roundGIF quant snaps src ((min src.width src.height / 2 : Nat) : Int)) ∧
    (∀ (w h : Nat) (src : Grid) (radius : Int), h ≤ w →
      ((min w h / 2 : Nat) : Int) < radius →
      ∀ x y : Nat, roundCornersPNG w h src radius x y
        = roundCornersPNG w h src ((min w h / 2 : Nat) : Int) x y) := by
  constructor
  · intro quant snaps src radius hgt
    unfold roundGIF
    rw [effectiveGIFRadius_clamp _ _ _ hgt, effectiveGIFRadius_self]
  · intro w h src radius hle hgt x y
    have hmin : min w h = h := Nat.min_eq_right hle
    have hrad : roundCornersRadius h radius
        = roundCornersRadius h ((min w h / 2 : Nat) : Int) := by
      unfold roundCornersRadius
      rw [hmin] at hgt
      split_ifs <;> omega
    unfold roundCornersPNG roundCornersGrid
    rw [hrad]

/-- C1 counterexample: on a 2×10 image (width < height) `roundCorners`
clamps the requested radius 5 only to `height/2 = 5`, not to
`min(width, height)/2 = 1`, and the two radii produce different pixels:
at `(0, 2)` radius 5 masks the opaque pixel away while radius 1 keeps it.
So requesting a radius above half the shorter dimension is NOT the same as
requesting exactly half the shorter dimension. -/
theorem radius_clamp_counterexample :
    ((min 2 10 / 2 : Nat) : Int) < 5 ∧
    roundCornersPNG 2 10 c1src 5 0 2 ≠ roundCornersPNG 2 10 c1src 1 0 2 := by
  decide

/-- C1 witness: the amended theorem applied to the concrete 2×2 GIF with
radius 5 and to a concrete 10×2 static image with radius 3. -/
theorem radius_clamp_amended_witness :
    (((min witGif.width witGif.height / 2 : Nat) : Int) < 5 ∧
      roundGIF witQuant witSnaps witGif 5
        = roundGIF witQuant witSnaps witGif ((min witGif.width witGif.height / 2 : Nat) : Int)) ∧
    ((2 : Nat) ≤ 10 ∧ ((min 10 2 / 2 : Nat) : Int) < 3 ∧
      ∀ x y : Nat, roundCornersPNG 10 2 c1src 3 x y
        = roundCornersPNG 10 2 c1src ((min 10 2 / 2 : Nat) : Int) x y) :=
  ⟨⟨by decide, radius_clamp_amended.1 witQuant witSnaps witGif 5 (by decide)⟩,
   ⟨by decide, by decide, radius_clamp_amended.2 10 2 c1src 3 (by decide) (by decide)⟩⟩

/-- C2: when `roundGIF` succeeds with a positive clamped radius, every
output frame has a transparent palette entry, and every in-range pixel
rejected by the masking predicate is assigned a palette index whose entry
has alpha 0; and whenever some frame's quantized palette already holds 256
(or more) entries none of which is transparent, `roundGIF` fails with the
palette-overflow error instead of succeeding. -/
theorem roundGIF_transparency (quant : Quantizer) (snaps : Nat → Grid) (src : Gif)
    (radius : Int) (hpos : 0 < effectiveGIFRadius src.width src.height radius) :
    (∀ dst, roundGIF quant snaps src radius = .ok dst →
      ∀ f ∈ dst.image,
        (∃ c ∈ f.palette, c.a = 0) ∧
        ∀ x y : Nat, x < src.width → y < src.height →
          isPixelInRoundedRect (x : Int) (y : Int) (src.width : Int) (src.height : Int)
            (effectiveGIFRadius src.width src.height radius) = false →
          f.pixIdx x y < f.palette.length ∧
          (f.palette.getD (f.pixIdx x y) ⟨0, 0, 0, 0⟩).a = 0) ∧
    (∀ i : Nat, i < src.image.length →
      ((candidateFrame src.width src.height quant (snaps i)).palette.any
        fun c => c.a == 0) = false →
      256 ≤ (candidateFrame src.width src.height quant (snaps i)).palette.length →
      roundGIF quant snaps src radius = .error .paletteOverflow) := by
  constructor
  · intro dst hok f hf
    have himg := roundGIF_ok_image quant snaps src radius dst hpos hok
    rcases processFrames_mem src.width src.height _ quant snaps _ _ _ himg f hf with ⟨j, hj⟩
    have hprops := processFrame_ok_props _ _ _ _ _ _ hj
    exact ⟨hprops.1, fun x y _ _ hmask => hprops.2 x y hmask⟩
  · intro i hi hnotr hlen
    have herr : processFrame src.width src.height
        (effectiveGIFRadius src.width src.height radius) quant (snaps i)
        = .error .paletteOverflow := by
      unfold processFrame
      dsimp only
      rw [if_pos ⟨hnotr, hlen⟩]
    unfold roundGIF
    dsimp only
    rw [if_neg (by omega : ¬ src.image.length = 0),
      if_neg (by omega : ¬ effectiveGIFRadius src.width src.height radius ≤ 0),
      processFrames_error src.width src.height _ quant snaps src.image.length 0 i
        (by omega) (by omega) herr]

/-- C2 witness: `roundGIF` on the concrete one-frame 2×2 GIF at radius 1
succeeds, and the theorem's per-frame guarantees hold of its output. -/
theorem roundGIF_transparency_witness :
    0 < effectiveGIFRadius witGif.width witGif.height 1 ∧
    roundGIF witQuant witSnaps witGif 1 = .ok c2dst ∧
    (∀ f ∈ c2dst.image,
      (∃ c ∈ f.palette, c.a = 0) ∧
      ∀ x y : Nat, x < witGif.width → y < witGif.height →
        isPixelInRoundedRect (x : Int) (y : Int) (witGif.width : Int) (witGif.height : Int)
          (effectiveGIFRadius witGif.width witGif.height 1) = false →
        f.pixIdx x y < f.palette.length ∧
        (f.palette.getD (f.pixIdx x y) ⟨0, 0, 0, 0⟩).a = 0) :=
  ⟨by decide, rfl,
   (roundGIF_transparency witQuant witSnaps witGif 1 (by decide)).1 c2dst rfl⟩

/-- C3 (amended): the exact-palette path of `roundGIF` is taken if and only
if the composited snapshot's unique color count measured BEFORE the
rounded-corner mask is applied is at most 255 — the source calls
`uniqueColors` on the unmasked snapshot, not on the masked one as the
claim states. -/
theorem exact_path_premask_amended (w h : Nat) (snap : Grid) :
    takesExactPath w h snap = true ↔ (snapshotColors w h snap).toFinset.card ≤ 255 :=
  takesExactPath_iff_card w h snap

set_option maxRecDepth 40000 in
set_option maxHeartbeats 4000000 in
/-- C3 counterexample: a 16×16 snapshot whose masked version has at most
255 distinct colors (245, in fact) while the exact-palette path is NOT
taken, because the unmasked snapshot has 256 distinct colors.  This
refutes "exact path taken iff post-mask unique count ≤ 255". -/
theorem exact_path_postmask_counterexample :
    takesExactPath 16 16 c3snap = false ∧
    (snapshotColors 16 16 (maskGrid 16 16 2 c3snap)).toFinset.card ≤ 255 := by
  constructor
  · decide
  · rw [← takesExactPath_iff_card]
    decide

/-- C4: for in-range pixel coordinates and a clamped non-negative radius,
`isPixelInRoundedRect` returns `false` only inside one of the four
radius-by-radius corner squares; inside each square it returns `true`
exactly when the integer squared distance to that corner's circle center
— `(radius, radius)`, `(width-radius-1, radius)`,
`(radius, height-radius-1)`, `(width-radius-1, height-radius-1)` — is at
most `radius²`; every coordinate outside all four squares is included. -/
theorem isPixelInRoundedRect_spec (x y w h r : Int) (hx0 : 0 ≤ x) (hxw : x < w)
    (hy0 : 0 ≤ y) (hyh : y < h) (hr0 : 0 ≤ r) (hclamp : r ≤ min w h / 2) :
    (isPixelInRoundedRect x y w h r = false →
      (x < r ∧ y < r) ∨ (w - r ≤ x ∧ y < r) ∨ (x < r ∧ h - r ≤ y) ∨
        (w - r ≤ x ∧ h - r ≤ y)) ∧
    ((x < r ∧ y < r) →
      (isPixelInRoundedRect x y w h r = true ↔
        (x - r) * (x - r) + (y - r) * (y - r) ≤ r * r)) ∧
    ((w - r ≤ x ∧ y < r) →
      (isPixelInRoundedRect x y w h r = true ↔
        (x - (w - r - 1)) * (x - (w - r - 1)) + (y - r) * (y - r) ≤ r * r)) ∧
    ((x < r ∧ h - r ≤ y) →
      (isPixelInRoundedRect x y w h r = true ↔
        (x - r) * (x - r) + (y - (h - r - 1)) * (y - (h - r - 1)) ≤ r * r)) ∧
    ((w - r ≤ x ∧ h - r ≤ y) →
      (isPixelInRoundedRect x y w h r = true ↔
        (x - (w - r - 1)) * (x - (w - r - 1)) + (y - (h - r - 1)) * (y - (h - r - 1))
          ≤ r * r)) ∧
    ((¬(x < r ∧ y < r) ∧ ¬(w - r ≤ x ∧ y < r) ∧ ¬(x < r ∧ h - r ≤ y) ∧
        ¬(w - r ≤ x ∧ h - r ≤ y)) →
      isPixelInRoundedRect x y w h r = true) := by
  have h2w : 2 * r ≤ w := by omega
  have h2h : 2 * r ≤ h := by omega
  unfold isPixelInRoundedRect
  refine ⟨?_, ?_, ?_, ?_, ?_, ?_⟩
  · intro hfalse
    split_ifs at hfalse with g1 g2 g3 g4
    · exact Or.inl g1
    · exact Or.inr (Or.inl g2)
    · exact Or.inr (Or.inr (Or.inl g3))
    · exact Or.inr (Or.inr (Or.inr g4))
  · rintro ⟨h1, h2⟩
    rw [if_pos ⟨h1, h2⟩]
    simp
  · rintro ⟨h1, h2⟩
    rw [if_neg (by omega), if_pos ⟨h1, h2⟩]
    simp
  · rintro ⟨h1, h2⟩
    rw [if_neg (by omega), if_neg (by omega), if_pos ⟨h1, h2⟩]
    simp
  · rintro ⟨h1, h2⟩
    rw [if_neg (by omega), if_neg (by omega), if_neg (by omega), if_pos ⟨h1, h2⟩]
    simp
  · rintro ⟨h1, h2, h3, h4⟩
    rw [if_neg h1, if_neg h2, if_neg h3, if_neg h4]

/-- C4 witness: the mask characterization applied at pixel `(0, 0)` of a
10×10 image with clamped radius 2. -/
theorem isPixelInRoundedRect_spec_witness :
    ((0 : Int) ≤ 0 ∧ (0 : Int) < 10 ∧ (0 : Int) ≤ 2 ∧ (2 : Int) ≤ min 10 10 / 2) ∧
    ((isPixelInRoundedRect 0 0 10 10 2 = false →
      ((0 : Int) < 2 ∧ (0 : Int) < 2) ∨ ((10 : Int) - 2 ≤ 0 ∧ (0 : Int) < 2) ∨
        ((0 : Int) < 2 ∧ (10 : Int) - 2 ≤ 0) ∨ ((10 : Int) - 2 ≤ 0 ∧ (10 : Int) - 2 ≤ 0)) ∧
    (((0 : Int) < 2 ∧ (0 : Int) < 2) →
      (isPixelInRoundedRect 0 0 10 10 2 = true ↔
        ((0 : Int) - 2) * ((0 : Int) - 2) + ((0 : Int) - 2) * ((0 : Int) - 2)
          ≤ (2 : Int) * 2)) ∧
    (((10 : Int) - 2 ≤ 0 ∧ (0 : Int) < 2) →
      (isPixelInRoundedRect 0 0 10 10 2 = true ↔
        ((0 : Int) - (10 - 2 - 1)) * ((0 : Int) - (10 - 2 - 1))
          + ((0 : Int) - 2) * ((0 : Int) - 2) ≤ (2 : Int) * 2)) ∧
    (((0 : Int) < 2 ∧ (10 : Int) - 2 ≤ 0) →
      (isPixelInRoundedRect 0 0 10 10 2 = true ↔
        ((0 : Int) - 2) * ((0 : Int) - 2)
          + ((0 : Int) - (10 - 2 - 1)) * ((0 : Int) - (10 - 2 - 1)) ≤ (2 : Int) * 2)) ∧
    (((10 : Int) - 2 ≤ 0 ∧ (10 : Int) - 2 ≤ 0) →
      (isPixelInRoundedRect 0 0 10 10 2 = true ↔
        ((0 : Int) - (10 - 2 - 1)) * ((0 : Int) - (10 - 2 - 1))
          + ((0 : Int) - (10 - 2 - 1)) * ((0 : Int) - (10 - 2 - 1)) ≤ (2 : Int) * 2)) ∧
    ((¬((0 : Int) < 2 ∧ (0 : Int) < 2) ∧ ¬((10 : Int) - 2 ≤ 0 ∧ (0 : Int) < 2) ∧
        ¬((0 : Int) < 2 ∧ (10 : Int) - 2 ≤ 0) ∧ ¬((10 : Int) - 2 ≤ 0 ∧ (10 : Int) - 2 ≤ 0)) →
      isPixelInRoundedRect 0 0 10 10 2 = true)) :=
  ⟨⟨le_refl 0, by decide, by decide, by decide⟩,
   isPixelInRoundedRect_spec 0 0 10 10 2 (le_refl 0) (by decide) (le_refl 0) (by decide)
     (by decide) (by decide)⟩

/-- C5: a GIF whose decoded frame list is empty makes `roundGIF` fail with
the no-frames error; no transformed GIF is returned. -/
theorem roundGIF_empty_error (quant : Quantizer) (snaps : Nat → Grid) (src : Gif)
    (radius : Int) (h : src.image = []) :
    roundGIF quant snaps src radius = .error .noFrames := by
  unfold roundGIF
  rw [if_pos (by simp [h])]

/-- C5 witness: the zero-frame GIF at radius 5. -/
theorem roundGIF_empty_error_witness :
    emptyGif.image = [] ∧ roundGIF witQuant witSnaps emptyGif 5 = .error .noFrames :=
  ⟨rfl, roundGIF_empty_error witQuant witSnaps emptyGif 5 rfl⟩

/-- C6: when `roundCorners` or `resizeImage` reports an error (decode or
re-encode failure), the returned cache state is exactly the input cache
state: no entry is written for the failed request. -/
theorem no_cache_write_on_error (decode : Bytes → Option Raster)
    (encodePNG : Nat → Nat → Grid → Option Bytes) (resizeJPEG : Raster → Int → Option Bytes)
    (now : Nat) (st : Cache) (data : Bytes) (radius size : Int) :
    ((roundCorners decode encodePNG now st data radius).1.2.2.isSome = true →
      (roundCorners decode encodePNG now st data radius).2 = st) ∧
    ((resizeImage decode resizeJPEG now st data size).1.2.isSome = true →
      (resizeImage decode resizeJPEG now st data size).2 = st) := by
  constructor
  · intro herr
    unfold roundCorners roundCornersCompute at herr ⊢
    rcases Option.eq_none_or_eq_some (lookupFresh st (data, radius) now) with hlk | ⟨e, hlk⟩
    · simp only [hlk] at herr ⊢
      rcases Option.eq_none_or_eq_some (decode data) with hdec | ⟨img, hdec⟩
      · simp only [hdec] at herr ⊢
      · simp only [hdec] at herr ⊢
        rcases Option.eq_none_or_eq_some (encodePNG img.width img.height
            (roundCornersGrid img.width img.height img.pix radius)) with henc | ⟨out, henc⟩
        · simp only [henc] at herr ⊢
        · simp only [henc] at herr ⊢
          simp at herr
    · simp only [hlk] at herr ⊢
  · intro herr
    unfold resizeImage resizeImageCompute at herr ⊢
    rcases Option.eq_none_or_eq_some (lookupFresh st (data, size) now) with hlk | ⟨e, hlk⟩
    · simp only [hlk] at herr ⊢
      rcases Option.eq_none_or_eq_some (decode data) with hdec | ⟨img, hdec⟩
      · simp only [hdec] at herr ⊢
      · simp only [hdec] at herr ⊢
        rcases Option.eq_none_or_eq_some (resizeJPEG img size) with henc | ⟨out, henc⟩
        · simp only [henc] at herr ⊢
        · simp only [henc] at herr ⊢
          simp at herr
    · simp only [hlk] at herr ⊢

/-- C6 witness: a failing decoder produces an error and leaves the empty
cache empty, for both transforms. -/
theorem no_cache_write_on_error_witness :
    (roundCorners decodeNone encodeNone 0 [] [5] 3).1.2.2.isSome = true ∧
    (roundCorners decodeNone encodeNone 0 [] [5] 3).2 = [] ∧
    (resizeImage decodeNone resizeNone 0 [] [5] 3).1.2.isSome = true ∧
    (resizeImage decodeNone resizeNone 0 [] [5] 3).2 = [] :=
  ⟨by decide,
   (no_cache_write_on_error decodeNone encodeNone resizeNone 0 [] [5] 3 3).1 (by decide),
   by decide,
   (no_cache_write_on_error decodeNone encodeNone resizeNone 0 [] [5] 3 3).2 (by decide)⟩

/-- C7 (amended): the `roundedCache`/`resizedCache` lookup used by
`roundCorners` and `resizeImage` serves a stored entry only when it is
younger than the fixed TTL (`cacheTimeout` seconds), and an entry at least
that old is treated as a miss — `roundCorners` proceeds exactly as the
compute-and-store path; the `transformCache` lookup in the `pfps.go`
`avatarHandler`, by contrast, performs no TTL check at all (see the
counterexample). -/
theorem cache_ttl_amended (st : Cache) (now : Nat) (data : Bytes) (radius : Int)
    (e : CachedImage) :
    (lookupFresh st (data, radius) now = some e → now - e.timestamp < cacheTimeout) ∧
    (cacheFind st (data, radius) = some e → cacheTimeout ≤ now - e.timestamp →
      lookupFresh st (data, radius) now = none ∧
      ∀ (decode : Bytes → Option Raster) (encodePNG : Nat → Nat → Grid → Option Bytes),
        roundCorners decode encodePNG now st data radius
          = roundCornersCompute decode encodePNG now st data radius) := by
  constructor
  · intro hlk
    unfold lookupFresh at hlk
    rcases Option.eq_none_or_eq_some (cacheFind st (data, radius)) with hf | ⟨e2, hf⟩
    · rw [hf] at hlk
      exact absurd hlk (by simp)
    · rw [hf, Option.some_bind] at hlk
      by_cases hfresh : now - e2.timestamp < cacheTimeout
      · rw [if_pos hfresh, Option.some.injEq] at hlk
        subst hlk
        exact hfresh
      · rw [if_neg hfresh] at hlk
        exact absurd hlk (by simp)
  · intro hf hstale
    have hnone : lookupFresh st (data, radius) now = none := by
      unfold lookupFresh
      rw [hf, Option.some_bind, if_neg (by omega)]
    refine ⟨hnone, fun decode encodePNG => ?_⟩
    unfold roundCorners
    rw [hnone]

/-- C7 counterexample: the `transformCache` lookup of the `pfps.go`
`avatarHandler` returns a stored entry whose age (9999 seconds against its
creation timestamp 0 — entries are in fact stored there with no timestamp
at all) is far beyond the TTL, so "a stored entry is returned only if
younger than the TTL" is false for that transform-cache lookup. -/
theorem cache_ttl_counterexample :
    avatarTransformCacheLookup [("etag-rounded-16", ⟨[1], "image/gif", 0⟩)] "etag-rounded-16"
      = some ⟨[1], "image/gif", 0⟩ ∧
    cacheTimeout ≤ 9999 - (0 : Nat) := by
  decide

/-- C7 witness: a fresh entry (age 999) is served; a stale one (age 9899)
is a miss and `roundCorners` recomputes. -/
theorem cache_ttl_amended_witness :
    (9999 - c7freshEntry.timestamp < cacheTimeout) ∧
    (lookupFresh c7staleSt ([8], 2) 9999 = none ∧
      ∀ (decode : Bytes → Option Raster) (encodePNG : Nat → Nat → Grid → Option Bytes),
        roundCorners decode encodePNG 9999 c7staleSt [8] 2
          = roundCornersCompute decode encodePNG 9999 c7staleSt [8] 2) :=
  ⟨(cache_ttl_amended c7freshSt 9999 [7] 2 c7freshEntry).1 (by decide),
   (cache_ttl_amended c7staleSt 9999 [8] 2 c7staleEntry).2 (by decide) (by decide)⟩

/-- C8 (amended): the validator is built from the source-identity token with
the size modifier suffix (`-size-<n>`) appended before the radius modifier
suffix (`-rounded-<raw radius string>`), in that fixed order.  Validator
equality does NOT coincide with byte-identical bodies, because the radius
suffix is the raw query string: `radius=16` and `radius=16px` produce
byte-identical bodies with different validators (see the
counterexample). -/
theorem etag_order_amended (resizeEnc : Bytes → Int → Option Bytes)
    (roundEnc : Bytes → Int → Option (Bytes × String)) (data : Bytes) (etag : String)
    (sizeStr radiusStr : String) :
    ∃ s t, (avatarStatic resizeEnc roundEnc data etag sizeStr radiusStr).2.2
        = etag ++ s ++ t ∧
      (s = "" ∨ ∃ n : Int, s = "-size-" ++ toString n) ∧
      (t = "" ∨ t = "-rounded-" ++ radiusStr) := by
  unfold avatarStatic
  have hsize : ∃ d1 s, sizeStep resizeEnc data etag sizeStr = (d1, etag ++ s) ∧
      (s = "" ∨ ∃ n : Int, s = "-size-" ++ toString n) := by
    unfold sizeStep
    rcases Option.eq_none_or_eq_some (goAtoi sizeStr) with hp | ⟨size, hp⟩
    · simp only [hp]
      exact ⟨data, "", by simp, Or.inl rfl⟩
    · simp only [hp]
      by_cases hcond : 0 < size ∧ size ≤ 256 ∧ size ≠ 256
      · rw [if_pos hcond]
        rcases Option.eq_none_or_eq_some (resizeEnc data size) with hr | ⟨resized, hr⟩
        · simp only [hr]
          exact ⟨data, "", by simp, Or.inl rfl⟩
        · simp only [hr]
          exact ⟨resized, "-size-" ++ toString size, by simp [String.append_assoc],
            Or.inr ⟨size, rfl⟩⟩
      · rw [if_neg hcond]
        exact ⟨data, "", by simp, Or.inl rfl⟩
  rcases hsize with ⟨d1, s, hs, hsok⟩
  rw [hs]
  dsimp only
  unfold radiusStep
  rcases Option.eq_none_or_eq_some (goAtoi (trimSuffixPx radiusStr)) with hp | ⟨rad, hp⟩
  · simp only [hp]
    exact ⟨s, "", by simp, hsok, Or.inl rfl⟩
  · simp only [hp]
    by_cases hcond : 0 < rad
    · rw [if_pos hcond]
      rcases Option.eq_none_or_eq_some (roundEnc d1 rad) with hr | ⟨p, hr⟩
      · simp only [hr]
        exact ⟨s, "", by simp, hsok, Or.inl rfl⟩
      · simp only [hr]
        exact ⟨s, "-rounded-" ++ radiusStr, by simp [String.append_assoc], hsok, Or.inr rfl⟩
    · rw [if_neg hcond]
      exact ⟨s, "", by simp, hsok, Or.inl rfl⟩

/-- C8 counterexample: with the same source bytes and identity token, the
radius strings `16` and `16px` parse to the same radius, so the bodies are
byte-identical, yet the derived validators differ (`...-rounded-16` versus
`...-rounded-16px`): validator equality is not equivalent to body
identity. -/
theorem etag_iff_counterexample :
    (avatarStatic rsConst rcConst [7] "base" "" "16").1
      = (avatarStatic rsConst rcConst [7] "base" "" "16px").1 ∧
    (avatarStatic rsConst rcConst [7] "base" "" "16").2.2
      ≠ (avatarStatic rsConst rcConst [7] "base" "" "16px").2.2 := by
  decide

/-- C9 (amended): applying `roundCorners` twice with the same radius yields
output identical to applying it once PROVIDED every source pixel is fully
opaque or fully transparent (JPEG sources are); for semi-transparent
pixels the alpha-premultiplied storage of the output canvas makes the PNG
re-encode non-idempotent (see the counterexample), so the unrestricted
claim fails. -/
theorem round_idempotent_amended (w h : Nat) (src : Grid) (radius : Int)
    (hb : chanBounded src) (ha : opaqueOrClear src) :
    ∀ x y : Nat, roundCornersPNG w h (roundCornersPNG w h src radius) radius x y
      = roundCornersPNG w h src radius x y := by
  intro x y
  have hinner : roundCornersPNG w h src radius x y
      = pngPixel (roundCornersGrid w h src radius x y) := rfl
  show pngPixel (roundCornersGrid w h (roundCornersPNG w h src radius) radius x y)
    = pngPixel (roundCornersGrid w h src radius x y)
  by_cases hm : isPixelInRoundedRect (x : Int) (y : Int) (w : Int) (h : Int)
      (roundCornersRadius h radius) = true
  · have h1 : roundCornersGrid w h src radius x y = rgbaStore (src x y) := by
      unfold roundCornersGrid
      rw [if_pos hm]
    have h2 : roundCornersGrid w h (roundCornersPNG w h src radius) radius x y
        = rgbaStore (roundCornersPNG w h src radius x y) := by
      unfold roundCornersGrid
      rw [if_pos hm]
    rw [h2, h1, hinner, h1]
    exact pngStore_idem (src x y) (hb x y) (ha x y)
  · have h1 : roundCornersGrid w h src radius x y = ⟨0, 0, 0, 0⟩ := by
      unfold roundCornersGrid
      rw [if_neg hm]
    have h2 : roundCornersGrid w h (roundCornersPNG w h src radius) radius x y
        = ⟨0, 0, 0, 0⟩ := by
      unfold roundCornersGrid
      rw [if_neg hm]
    rw [h2, h1]

/-- C9 counterexample: a 1×1 image whose pixel is `(128, 128, 128)` at alpha
2.  One pass stores the premultiplied byte 1 and re-encodes it as 127; the
second pass premultiplies 127 back to 0 and re-encodes 0: the two outputs
differ, so round-twice is not byte-identical to round-once. -/
theorem round_idempotent_counterexample :
    roundCornersPNG 1 1 (roundCornersPNG 1 1 c9src 16) 16 0 0
      ≠ roundCornersPNG 1 1 c9src 16 0 0 := by
  decide

/-- C9 witness: the amended idempotence applied to a concrete opaque 2×2
image at radius 1. -/
theorem round_idempotent_amended_witness :
    chanBounded c9wit ∧ opaqueOrClear c9wit ∧
    ∀ x y : Nat, roundCornersPNG 2 2 (roundCornersPNG 2 2 c9wit 1) 1 x y
      = roundCornersPNG 2 2 c9wit 1 x y :=
  ⟨fun _ _ => by simp [c9wit], fun _ _ => Or.inl rfl,
   round_idempotent_amended 2 2 c9wit 1 (fun _ _ => by simp [c9wit])
     (fun _ _ => Or.inl rfl)⟩

/-- C10: for a decoded GIF with at least one frame, when the requested
radius clamps to a non-positive value — in particular for any non-positive
requested radius, or a canvas whose width or height is at most 1 —
`roundGIF` returns the input GIF value itself unchanged with no error. -/
theorem roundGIF_noop_nonpositive (quant : Quantizer) (snaps : Nat → Grid) (src : Gif)
    (radius : Int) (h1 : src.image ≠ [])
    (h2 : radius ≤ 0 ∨ src.width ≤ 1 ∨ src.height ≤ 1 ∨
      effectiveGIFRadius src.width src.height radius ≤ 0) :
    roundGIF quant snaps src radius = .ok src := by
  have hrc : effectiveGIFRadius src.width src.height radius ≤ 0 := by
    rcases h2 with h2 | h2 | h2 | h2
    · exact effectiveGIFRadius_nonpos _ _ _ (Or.inl h2)
    · exact effectiveGIFRadius_nonpos _ _ _ (Or.inr (Or.inl h2))
    · exact effectiveGIFRadius_nonpos _ _ _ (Or.inr (Or.inr h2))
    · exact h2
  unfold roundGIF
  dsimp only
  rw [if_neg (by simp [h1]), if_pos hrc]

/-- C10 witness: the one-frame 2×2 GIF with requested radius −3 comes back
unchanged. -/
theorem roundGIF_noop_nonpositive_witness :
    witGif.image ≠ [] ∧
    ((-3 : Int) ≤ 0 ∨ witGif.width ≤ 1 ∨ witGif.height ≤ 1 ∨
      effectiveGIFRadius witGif.width witGif.height (-3) ≤ 0) ∧
    roundGIF witQuant witSnaps witGif (-3) = .ok witGif :=
  ⟨List.cons_ne_nil witFrame [], Or.inl (by decide),
   roundGIF_noop_nonpositive witQuant witSnaps witGif (-3) (List.cons_ne_nil witFrame [])
     (Or.inl (by decide))⟩

end Avatars
